import Mathlib

/-!
Verification development for the funq client model layer
(`src/client/funq/models.py`).

The Python source is shallowly embedded: JSON-like descriptor data becomes
an inductive `Json` type, remote commands become explicit `Cmd` records
collected in traces, fallible operations return `Option`/`× Option String`,
and the wall-clock polling loop of `funq.tools.wait_for` (whose source is
not part of this repository snapshot) is modelled from the specification
with an explicit poll budget.
-/

namespace Funq

/-- JSON-like values as decoded from the wire, used for descriptor fields
and property values (`data` dictionaries in `models.py`). -/
inductive Json where
  | null
  | bool (b : Bool)
  | int (n : Int)
  | str (s : String)
  | arr (elems : List Json)
  | obj (fields : List (String × Json))
deriving Repr

/-- Association-list lookup, modelling Python `dict` key lookup
(`data[k]` / `data.get(k)`); JSON object keys are unique on the wire, so
first-match lookup coincides with dict lookup. -/
def lookupField : List (String × Json) → String → Option Json
  | [], _ => none
  | (k, v) :: rest, key => if k = key then some v else lookupField rest key

mutual
/-- Structural decidable equality for `Json` (the `deriving` handler does
not support this nested inductive).  Dict values compare field-by-field in
order; wire-decoded objects have a fixed field order, so this coincides
with Python value equality on the data this layer handles. -/
def Json.decEq : (a b : Json) → Decidable (a = b)
  | .null, .null => isTrue rfl
  | .bool a, .bool b =>
    decidable_of_iff (a = b) ⟨fun h => by rw [h], fun h => by injection h⟩
  | .int a, .int b =>
    decidable_of_iff (a = b) ⟨fun h => by rw [h], fun h => by injection h⟩
  | .str a, .str b =>
    decidable_of_iff (a = b) ⟨fun h => by rw [h], fun h => by injection h⟩
  | .arr a, .arr b =>
    haveI : Decidable (a = b) := Json.decEqList a b
    decidable_of_iff (a = b) ⟨fun h => by rw [h], fun h => by injection h⟩
  | .obj a, .obj b =>
    haveI : Decidable (a = b) := Json.decEqFields a b
    decidable_of_iff (a = b) ⟨fun h => by rw [h], fun h => by injection h⟩
  | .null, .bool _ | .null, .int _ | .null, .str _ | .null, .arr _ | .null, .obj _
  | .bool _, .null | .bool _, .int _ | .bool _, .str _ | .bool _, .arr _ | .bool _, .obj _
  | .int _, .null | .int _, .bool _ | .int _, .str _ | .int _, .arr _ | .int _, .obj _
  | .str _, .null | .str _, .bool _ | .str _, .int _ | .str _, .arr _ | .str _, .obj _
  | .arr _, .null | .arr _, .bool _ | .arr _, .int _ | .arr _, .str _ | .arr _, .obj _
  | .obj _, .null | .obj _, .bool _ | .obj _, .int _ | .obj _, .str _ | .obj _, .arr _ =>
    isFalse (fun h => Json.noConfusion h)
/-- Structural decidable equality for lists of `Json`. -/
def Json.decEqList : (a b : List Json) → Decidable (a = b)
  | [], [] => isTrue rfl
  | [], _ :: _ => isFalse (fun h => List.noConfusion h)
  | _ :: _, [] => isFalse (fun h => List.noConfusion h)
  | x :: xs, y :: ys =>
    haveI : Decidable (x = y) := Json.decEq x y
    haveI : Decidable (xs = ys) := Json.decEqList xs ys
    decidable_of_iff (x = y ∧ xs = ys)
      ⟨fun ⟨h1, h2⟩ => by rw [h1, h2],
       fun h => by injection h with h1 h2; exact ⟨h1, h2⟩⟩
/-- Structural decidable equality for `Json` object field lists. -/
def Json.decEqFields : (a b : List (String × Json)) → Decidable (a = b)
  | [], [] => isTrue rfl
  | [], _ :: _ => isFalse (fun h => List.noConfusion h)
  | _ :: _, [] => isFalse (fun h => List.noConfusion h)
  | (k, x) :: xs, (k', y) :: ys =>
    haveI : Decidable (x = y) := Json.decEq x y
    haveI : Decidable (xs = ys) := Json.decEqFields xs ys
    decidable_of_iff (k = k' ∧ x = y ∧ xs = ys)
      ⟨fun ⟨h0, h1, h2⟩ => by rw [h0, h1, h2],
       fun h => by
        injection h with h1 h2
        injection h1 with h3 h4
        exact ⟨h3, h4, h2⟩⟩
end

instance : DecidableEq Json := Json.decEq

/-! ### Class registry and dynamic dispatch (`WidgetMetaClass`, lines 113-131)

`WidgetMetaClass.__new__` records `cpp_class → class` pairs in the shared
`_cpp_classes` dict; `WidgetMetaClass.__call__` walks `data.get('classes', [])`
and dispatches on the first registered name.  Variant constructors are
represented by their class names; constructing a variant on a descriptor is
represented by returning that variant's name.  The Python recursion
(`cls._cpp_classes[cppcls](client, data)` re-enters `__call__`) is embedded
with an explicit fuel argument; `none` marks fuel exhaustion and is proved
unreachable for fuel ≥ 2. -/

/-- The registry: remote C++ class name to client variant name. -/
def Registry := List (String × String)

/-- Registry lookup (`cppcls in cls._cpp_classes` / `cls._cpp_classes[cppcls]`). -/
def regLookup : Registry → String → Option String
  | [], _ => none
  | (k, c) :: rest, key => if k = key then some c else regLookup rest key

/-- The `for cppcls in data.get('classes', [])` walk of
`WidgetMetaClass.__call__`: the first chain entry present in the registry
(the loop `break`s or `return`s at the first hit either way). -/
def firstRegistered (reg : Registry) : List String → Option String
  | [] => none
  | k :: ks =>
    match regLookup reg k with
    | some c => some c
    | none => firstRegistered reg ks

/-- `WidgetMetaClass.__call__(cls, client, data)` (lines 125-131): walk the
chain; on the first registered hit, `break` if it is `cls` itself
(then construct `cls` via `super().__call__`), otherwise re-enter `__call__`
on the registered class with the same descriptor. -/
def WidgetMetaClass.call (reg : Registry) : Nat → String → List String → Option String
  | 0, _, _ => none
  | fuel + 1, cls, classes =>
    match firstRegistered reg classes with
    | none => some cls
    | some c => if c = cls then some cls else WidgetMetaClass.call reg fuel c classes

/-- The registrations performed at import time by the `cpp_class=...` class
keyword arguments in `models.py`, in source order. -/
def cppClasses : Registry :=
  [("QAbstractItemView", "AbstractItemView"),
   ("QTableView", "TableView"),
   ("QTreeView", "TreeView"),
   ("QTabBar", "TabBar"),
   ("QGraphicsView", "GraphicsView"),
   ("QComboBox", "ComboBox"),
   ("QHeaderView", "HeaderView"),
   ("QQuickItem", "QuickItem"),
   ("QQuickWindow", "QuickWindow")]

/-- Claim-side definition, following the words of claim C1: the first name
in the chain found in the registry *whose registered constructor differs
from the requested variant constructor* determines the result.  Kept
separate from `WidgetMetaClass.call` (the source embedding) so the two can
be compared. -/
def claimedDispatchTarget (reg : Registry) (cls : String) : List String → Option String
  | [] => none
  | k :: ks =>
    match regLookup reg k with
    | some c => if c = cls then claimedDispatchTarget reg cls ks else some c
    | none => claimedDispatchTarget reg cls ks

/-! ### Tree entities and collections (`TreeItem`/`TreeItems`, `ModelItem`/`ModelItems`)

`ModelItem` (lines 502-527) carries the decoded scalar fields `row`,
`column`, `value` (wire contract: `row: int, column: int, value: string`)
and the recursively constructed `items` child list.  `ModelItems`
(`TreeItems`, lines 68-110) wraps the top-level item list. -/

/-- One model item: `row`, `column`, `value` and its child `items`
(`ModelItem` fields used by the traversal and path-resolution code). -/
inductive ModelItem : Type where
  | mk : Int → Int → String → List ModelItem → ModelItem
deriving Repr

mutual
/-- Structural decidable equality for `ModelItem` (the `deriving` handler
does not support this nested inductive). -/
def ModelItem.decEq : (a b : ModelItem) → Decidable (a = b)
  | .mk r c v ts, .mk r' c' v' ts' =>
    haveI : Decidable (ts = ts') := ModelItem.decEqList ts ts'
    decidable_of_iff (r = r' ∧ c = c' ∧ v = v' ∧ ts = ts')
      ⟨fun ⟨h1, h2, h3, h4⟩ => by rw [h1, h2, h3, h4],
       fun h => by injection h with h1 h2 h3 h4; exact ⟨h1, h2, h3, h4⟩⟩
/-- Structural decidable equality for lists of `ModelItem`. -/
def ModelItem.decEqList : (a b : List ModelItem) → Decidable (a = b)
  | [], [] => isTrue rfl
  | [], _ :: _ => isFalse (fun h => List.noConfusion h)
  | _ :: _, [] => isFalse (fun h => List.noConfusion h)
  | x :: xs, y :: ys =>
    haveI : Decidable (x = y) := ModelItem.decEq x y
    haveI : Decidable (xs = ys) := ModelItem.decEqList xs ys
    decidable_of_iff (x = y ∧ xs = ys)
      ⟨fun ⟨h1, h2⟩ => by rw [h1, h2],
       fun h => by injection h with h1 h2; exact ⟨h1, h2⟩⟩
end

instance : DecidableEq ModelItem := ModelItem.decEq

def ModelItem.row : ModelItem → Int
  | .mk r _ _ _ => r

def ModelItem.column : ModelItem → Int
  | .mk _ c _ _ => c

def ModelItem.value : ModelItem → String
  | .mk _ _ v _ => v

def ModelItem.items : ModelItem → List ModelItem
  | .mk _ _ _ ts => ts

/-- A `ModelItems` collection: the top-level item list (`self.items` set by
`TreeItems.__init__`). -/
structure ModelItems where
  items : List ModelItem

/-- The recursive generator of `TreeItems.__iter__` (lines 95-110): for each
item of a level, yield the item, then recursively yield its whole subtree,
then continue with the following items of the level. -/
def iterItems : List ModelItem → List ModelItem
  | [] => []
  | .mk r c v ch :: rest => .mk r c v ch :: (iterItems ch ++ iterItems rest)

/-- Iterating a collection (`iter(self)` / `TreeItems.iter`). -/
def ModelItems.iter (self : ModelItems) : List ModelItem := iterItems self.items

mutual
/-- Number of nodes of one item's subtree (the item itself plus all of its
descendants); defined independently of the traversal. -/
def ModelItem.size : ModelItem → Nat
  | .mk _ _ _ ch => 1 + sizeList ch
/-- Total number of nodes below a list of sibling items. -/
def sizeList : List ModelItem → Nat
  | [] => 0
  | it :: rest => ModelItem.size it + sizeList rest
end

/-- Post-order enumeration of the same trees (children first, then the node,
then the following siblings) — an independent enumeration of the node
multiset used to state that the traversal visits each node exactly once. -/
def postItems : List ModelItem → List ModelItem
  | [] => []
  | .mk r c v ch :: rest => postItems ch ++ (.mk r c v ch :: postItems rest)

/-! ### Named-path resolution (`ModelItems.row_by_named_path`, lines 555-595)

The `while item and parts` loop pops one segment per level and scans the
current level's `item.items`.  At the *final* segment the code returns the
sorted row at the first match; at an *intermediate* segment the scan does
not break, so `next_item` ends up holding the *last* matching sibling.
Python's `sorted` is a stable sort keyed on `column`; it is modelled by
`List.insertionSort` with the non-strict key comparison, which is also
stable, and stable sorts on the same key agree. -/

/-- The match test of the scan:
`match_column == item_.column and item_.value == part`. -/
def matchesPart (mc : Int) (p : String) (it : ModelItem) : Bool :=
  decide (mc = it.column) && decide (it.value = p)

/-- The intermediate-segment scan: the loop body keeps overwriting
`next_item` with each matching sibling, so the accumulator ends at the last
match (or stays at its initial value when nothing matches). -/
def scanLast (mc : Int) (p : String) : List ModelItem → Option ModelItem → Option ModelItem
  | [], acc => acc
  | it :: rest, acc =>
    scanLast mc p rest (if matchesPart mc p it then some it else acc)

/-- Key order of `sorted(row, key=lambda it: it.column)`. -/
def byColumn (a b : ModelItem) : Prop := a.column ≤ b.column

instance : DecidableRel byColumn := fun a b =>
  inferInstanceAs (Decidable (a.column ≤ b.column))

instance : IsTotal ModelItem byColumn := ⟨fun a b => Int.le_total a.column b.column⟩

instance : IsTrans ModelItem byColumn := ⟨fun _ _ _ h1 h2 => le_trans h1 h2⟩

/-- The returned row: every sibling of the current level sharing the matched
item's row index, stably sorted ascending by column
(`sorted([it for it in item.items if it.row == item_.row], key=...)`). -/
def rowOf (level : List ModelItem) (m : ModelItem) : List ModelItem :=
  List.insertionSort byColumn (level.filter (fun it => decide (it.row = m.row)))

/-- The `while` loop of `row_by_named_path`, recursing on the remaining
segments: a final segment returns the sorted row at the first match, an
intermediate segment descends into the last matching sibling's children,
and a level without a match (or an empty segment list) yields `None`. -/
def goNamedPath (mc : Int) : List String → List ModelItem → Option (List ModelItem)
  | [], _ => none
  | [p], level =>
    match level.find? (matchesPart mc p) with
    | some m => some (rowOf level m)
    | none => none
  | p :: q :: rest, level =>
    match scanLast mc p level none with
    | some m => goNamedPath mc (q :: rest) m.items
    | none => none

/-- `ModelItems.row_by_named_path(named_path, match_column)` with the path
already split into segments (the method accepts a list or a string split on
`sep`; the list form is embedded). -/
def ModelItems.row_by_named_path (self : ModelItems) (named_path : List String)
    (match_column : Int) : Option (List ModelItem) :=
  goNamedPath match_column named_path self.items

/-- Claim-side description of a *successful* resolution: each segment in
order matches an item at the current level — the item the code's scan
selects (first match at the final segment, last match at intermediate
ones) — descending into the matched item's children between segments;
`PathResolves mc level parts finalLevel m` records the final matched level
and item. -/
inductive PathResolves (mc : Int) :
    List ModelItem → List String → List ModelItem → ModelItem → Prop where
  | last : ∀ level p m, level.find? (matchesPart mc p) = some m →
      PathResolves mc level [p] level m
  | descend : ∀ level p q rest m fl fm,
      scanLast mc p level none = some m →
      PathResolves mc m.items (q :: rest) fl fm →
      PathResolves mc level (p :: q :: rest) fl fm

/-- Claim-side description of a *failed* resolution: at some reached level
no item matches the current segment. -/
inductive PathFails (mc : Int) : List ModelItem → List String → Prop where
  | here : ∀ level p rest, (∀ it ∈ level, matchesPart mc p it = false) →
      PathFails mc level (p :: rest)
  | later : ∀ level p q rest m,
      scanLast mc p level none = some m →
      PathFails mc m.items (q :: rest) →
      PathFails mc level (p :: q :: rest)

/-! ### Remote commands, `Object.Properties` proxy and `set_properties`
(lines 151-239)

Remote interaction is embedded as explicit traces: every
`client.send_command(name, ...)` is one `Cmd` record.  The remote object's
current property mapping is passed in as `server`; a read returns the value
together with the commands it sent, a write returns the commands it sends.
No state is retained between operations — matching the proxy, which caches
nothing. -/

/-- One `send_command` invocation on the command channel. -/
structure Cmd where
  action : String
  oid : Int
  args : List (String × Json)
deriving Repr, DecidableEq

/-- The single bulk read `send_command('object_properties', oid=...)`. -/
def object_properties_cmd (oid : Int) : Cmd := ⟨"object_properties", oid, []⟩

/-- `Object.set_properties(**properties)` (lines 219-229): one
`object_set_properties` command carrying all given key/value pairs. -/
def Object.set_properties (oid : Int) (properties : List (String × Json)) : List Cmd :=
  [⟨"object_set_properties", oid, [("properties", Json.obj properties)]⟩]

/-- `Object.set_property(name, value)` (lines 231-239): a single-entry
`set_properties`. -/
def Object.set_property (oid : Int) (name : String) (value : Json) : List Cmd :=
  Object.set_properties oid [(name, value)]

/-- `Properties.__call__` (lines 155-164): one fresh
`object_properties` query returning the full current mapping. -/
def Properties.call (oid : Int) (server : List (String × Json)) :
    List (String × Json) × List Cmd :=
  (server, [object_properties_cmd oid])

/-- `Properties.__getitem__` (lines 169-177): `self()[item]` — a fresh bulk
read, then the lookup (`none` models the `KeyError` on an absent name). -/
def Properties.getItem (oid : Int) (server : List (String × Json)) (item : String) :
    Option Json × List Cmd :=
  (lookupField (Properties.call oid server).1 item, (Properties.call oid server).2)

/-- `Properties.__getattr__` (lines 189-197): `self()[item]`, same body as
the item-style read. -/
def Properties.getAttr (oid : Int) (server : List (String × Json)) (item : String) :
    Option Json × List Cmd :=
  (lookupField (Properties.call oid server).1 item, (Properties.call oid server).2)

/-- `Properties.__setitem__` (lines 179-187):
`self.__obj.set_properties(**{item: value})`. -/
def Properties.setItem (oid : Int) (item : String) (value : Json) : List Cmd :=
  Object.set_properties oid [(item, value)]

/-- `Properties.__setattr__` (lines 199-207):
`self.__obj.set_properties(**{item: value})`. -/
def Properties.setAttr (oid : Int) (item : String) (value : Json) : List Cmd :=
  Object.set_properties oid [(item, value)]

/-! ### Condition polling (`Object.wait_for_properties`, lines 241-255)

`funq.tools.wait_for` is imported by `models.py` but its source is not part
of this repository snapshot; it is modelled from the specification. -/

/-- Modelled from the spec: `wait_for(predicate, timeout, poll_interval)`
from `funq.tools` (not under `src/`) — "evaluates `predicate()`
immediately; if true, returns true without sleeping.  Otherwise repeats
{sleep, evaluate} until the predicate returns true or the timeout elapses
(return false)."  Wall-clock time is abstracted into a budget of additional
polls after the immediate first evaluation; the predicate receives the poll
index so that successive snapshots can differ. -/
def wait_for (pred : Nat → Bool) : Nat → Nat → Bool
  | i, 0 => pred i
  | i, extra + 1 => if pred i then true else wait_for pred (i + 1) extra

/-- The inner `check_props` of `Object.wait_for_properties` (lines 249-254):
every expected key must compare equal to `properties.get(k)` — the lookup
with a `None` default for absent keys. -/
def check_props (properties : List (String × Json)) (props : List (String × Json)) : Bool :=
  props.all (fun kv => decide ((lookupField properties kv.1).getD Json.null = kv.2))

/-- `Object.wait_for_properties(props, ...)` (lines 241-255): poll the fresh
property snapshot (`snaps i` is the mapping served to the i-th poll) until
`check_props` holds or the budget runs out. -/
def Object.wait_for_properties (snaps : Nat → List (String × Json))
    (props : List (String × Json)) (extraPolls : Nat) : Bool :=
  wait_for (fun i => check_props (snaps i) props) 0 extraPolls

/-- Modelled from the spec: number of predicate evaluations (= property
polls, each one remote `object_properties` query) that
`wait_for` performs — always at least the immediate first one. -/
def wait_for_polls (pred : Nat → Bool) : Nat → Nat → Nat
  | _, 0 => 1
  | i, extra + 1 => if pred i then 1 else 1 + wait_for_polls pred (i + 1) extra

/-! ### Click-style operations (`Widget.click` lines 319-343, `GItem.click`
lines 851-863)

Both validate the `btn` string with the same `if/elif/else` chain and raise
`ValueError(f'Invalid mouse button: {btn}')` on anything outside
`left`/`right`/`middle`.  `Widget.click` first runs
`wait_for_properties({'enabled': True, 'visible': True})` whenever
`wait_for_enabled > 0` — issuing property polls *before* the validation —
and ignores its boolean result.  Results are embedded as
`(trace of sent commands, optional error message)`. -/

/-- Expected-properties mapping of the pre-click wait:
`{'enabled': True, 'visible': True}`. -/
def enabledVisible : List (String × Json) :=
  [("enabled", Json.bool true), ("visible", Json.bool true)]

/-- `Widget.click(wait_for_enabled, btn)`: optional pre-wait polls, then
button validation, then the single `widget_click` command. -/
def Widget.click (snaps : Nat → List (String × Json)) (oid : Int)
    (wait_for_enabled_pos : Bool) (extraPolls : Nat) (btn : String) :
    List Cmd × Option String :=
  let pre : List Cmd :=
    if wait_for_enabled_pos then
      List.replicate
        (wait_for_polls (fun i => check_props (snaps i) enabledVisible) 0 extraPolls)
        (object_properties_cmd oid)
    else []
  if btn = "left" then
    (pre ++ [⟨"widget_click", oid, [("mouseAction", Json.str "click")]⟩], none)
  else if btn = "right" then
    (pre ++ [⟨"widget_click", oid, [("mouseAction", Json.str "rightclick")]⟩], none)
  else if btn = "middle" then
    (pre ++ [⟨"widget_click", oid, [("mouseAction", Json.str "middleclick")]⟩], none)
  else
    (pre, some ("Invalid mouse button: " ++ btn))

/-- `GItem.click(btn)`: button validation, then the single
`model_gitem_action` command (no wait, no other remote call). -/
def GItem.click (viewid : Int) (gid : Int) (btn : String) : List Cmd × Option String :=
  if btn = "left" then
    ([⟨"model_gitem_action", viewid,
        [("itemaction", Json.str "click"), ("gid", Json.int gid)]⟩], none)
  else if btn = "right" then
    ([⟨"model_gitem_action", viewid,
        [("itemaction", Json.str "rightclick"), ("gid", Json.int gid)]⟩], none)
  else if btn = "middle" then
    ([⟨"model_gitem_action", viewid,
        [("itemaction", Json.str "middleclick"), ("gid", Json.int gid)]⟩], none)
  else
    ([], some ("Invalid mouse button: " ++ btn))

/-! ### `ComboBox.set_current_text` (lines 937-951) -/

/-- `ComboBox.set_current_text(text)`: read `modelColumn` from a fresh
property query, fetch the model and its items, scan all model items in
iteration order for the first whose column is `modelColumn` and whose value
is `text` (initial `index = -1`), `assert index > -1` with a message naming
the text and the widget path, then write `currentIndex`.  The `isinstance`
string check cannot fire for a `String` argument and needs no embedding. -/
def ComboBox.set_current_text (path : String) (modelColumn : Int) (oid : Int)
    (items : List ModelItem) (text : String) : List Cmd × Option String :=
  let pre : List Cmd :=
    [object_properties_cmd oid, ⟨"model", oid, []⟩, ⟨"model_items", oid, []⟩]
  let index : Int :=
    match (iterItems items).find? (matchesPart modelColumn text) with
    | some it => it.row
    | none => -1
  if index > -1 then
    (pre ++ Object.set_property oid "currentIndex" (Json.int index), none)
  else
    (pre, some ("The text `" ++ text ++ "` is not in the combobox `" ++ path ++ "`"))

/-! ### Descriptor-tree construction (`TreeItem.__init__` lines 49-57,
`TreeItems.__init__` lines 74-80)

`TreeItem.__init__` copies every descriptor field onto the instance and
builds children from `getattr(self, 'items', [])` — an absent `items` field
yields `[]`.  `TreeItems.__init__` builds the top-level list from
`data['items']` — an absent key raises `KeyError`.  Construction is
embedded as an `Option`: `none` models a raised exception.  The generic
node keeps all raw descriptor fields (the `items` attribute is superseded
by the constructed child list, as in the code's final assignment). -/

/-- A constructed tree node: the raw descriptor fields plus the recursively
constructed child items. -/
inductive TItem where
  | mk (fields : List (String × Json)) (items : List TItem)

def TItem.fields : TItem → List (String × Json)
  | .mk f _ => f

def TItem.items : TItem → List TItem
  | .mk _ ts => ts

/-- A constructed tree collection: the top-level item list. -/
structure TItems where
  items : List TItem

mutual
/-- `TreeItem.__init__(client, data)`: `data` must be a mapping; children
come from the `items` field when present (`[]` when absent) and each child
descriptor is built recursively with the same constructor. -/
def TreeItem.init : Json → Option TItem
  | .obj fields =>
    match TreeItem.buildChildren fields with
    | some ts => some (TItem.mk fields ts)
    | none => none
  | _ => none
/-- Children of a node descriptor: the value of its `items` key built
recursively (`[]` when the key is absent, a raised error — `none` — when the
value is not a list of mappings). -/
def TreeItem.buildChildren : List (String × Json) → Option (List TItem)
  | [] => some []
  | (k, v) :: rest =>
    if k = "items" then
      match v with
      | .arr ds => TreeItem.initList ds
      | _ => none
    else TreeItem.buildChildren rest
/-- Recursive construction of a child-descriptor list. -/
def TreeItem.initList : List Json → Option (List TItem)
  | [] => some []
  | d :: ds =>
    match TreeItem.init d, TreeItem.initList ds with
    | some t, some ts => some (t :: ts)
    | _, _ => none
end

/-- `TreeItems.__init__(client, data)`: the top-level list is built from
`data['items']` — an absent key or a non-list value is a raised error. -/
def TreeItems.init (data : Json) : Option TItems :=
  match data with
  | .obj fields =>
    match lookupField fields "items" with
    | some (.arr ds) =>
      match TreeItem.initList ds with
      | some ts => some ⟨ts⟩
      | none => none
    | _ => none
  | _ => none

/-- Claim-side definition, following the words of claim C5: first match wins
at *every* level — for an intermediate segment, descend into the first
matching sibling's children.  Kept separate from `goNamedPath` (the source
embedding) so the two can be compared. -/
def claimedFirstMatchPath (mc : Int) : List String → List ModelItem → Option (List ModelItem)
  | [], _ => none
  | [p], level =>
    match level.find? (matchesPart mc p) with
    | some m => some (rowOf level m)
    | none => none
  | p :: q :: rest, level =>
    match level.find? (matchesPart mc p) with
    | some m => claimedFirstMatchPath mc (q :: rest) m.items
    | none => none

/-! ### Theorems -/

theorem WidgetMetaClass.call_fuel (reg : Registry) (cls : String)
    (classes : List String) (fuel : Nat) :
    WidgetMetaClass.call reg (fuel + 2) cls classes =
      some ((firstRegistered reg classes).getD cls) := by
  cases h : firstRegistered reg classes with
  | none => simp [WidgetMetaClass.call, h]
  | some c =>
    by_cases hc : c = cls
    · simp [WidgetMetaClass.call, h, hc]
    · simp [WidgetMetaClass.call, h, hc]

theorem iterItems_length (ts : List ModelItem) :
    (iterItems ts).length = sizeList ts := by
  induction ts using iterItems.induct with
  | case1 => simp [iterItems, sizeList]
  | case2 r c v ch rest ihch ih =>
    simp [iterItems, sizeList, ModelItem.size, ihch, ih]
    omega

theorem iterItems_perm_postItems (ts : List ModelItem) :
    (iterItems ts).Perm (postItems ts) := by
  induction ts using iterItems.induct with
  | case1 => simp [iterItems, postItems]
  | case2 r c v ch rest ihch ih =>
    have h1 : (ModelItem.mk r c v ch :: (iterItems ch ++ iterItems rest)).Perm
        (ModelItem.mk r c v ch :: (postItems ch ++ postItems rest)) :=
      List.Perm.cons _ (List.Perm.append ihch ih)
    have h2 : (ModelItem.mk r c v ch :: (postItems ch ++ postItems rest)).Perm
        (postItems ch ++ (ModelItem.mk r c v ch :: postItems rest)) :=
      List.perm_middle.symm
    simpa [iterItems, postItems] using h1.trans h2

/-- C3: iterating a tree collection is a finite pre-order depth-first
traversal that visits every node exactly once: the produced sequence has one
entry per node of the snapshot (its length is the total node count, and it
is a permutation of an independent post-order enumeration of the same
nodes), and each level item is yielded before its entire subtree, which is
yielded in full before the next sibling of the same level.  The embedding
is a pure function of the immutable snapshot, so repeated iterations yield
identical sequences by construction. -/
theorem c3_iter_preorder_visits_once :
    (∀ self : ModelItems, self.iter.length = sizeList self.items) ∧
    (∀ self : ModelItems, self.iter.Perm (postItems self.items)) ∧
    (∀ (it : ModelItem) (rest : List ModelItem),
        iterItems (it :: rest) = it :: (iterItems it.items ++ iterItems rest)) :=
  ⟨fun self => iterItems_length self.items,
   fun self => iterItems_perm_postItems self.items,
   fun it rest => by cases it with | mk r c v ch => simp [iterItems, ModelItem.items]⟩

theorem scanLast_all_false (mc : Int) (p : String) (l : List ModelItem)
    (acc : Option ModelItem) (h : ∀ it ∈ l, matchesPart mc p it = false) :
    scanLast mc p l acc = acc := by
  induction l generalizing acc with
  | nil => rfl
  | cons it rest ih =>
    have hit : matchesPart mc p it = false := h it (List.mem_cons_self it rest)
    simp only [scanLast, hit, Bool.false_eq_true, if_false]
    exact ih acc (fun x hx => h x (List.mem_cons_of_mem it hx))

theorem scanLast_append (mc : Int) (p : String) (l1 l2 : List ModelItem)
    (acc : Option ModelItem) :
    scanLast mc p (l1 ++ l2) acc = scanLast mc p l2 (scanLast mc p l1 acc) := by
  induction l1 generalizing acc with
  | nil => rfl
  | cons it rest ih =>
    simp only [List.cons_append, scanLast]
    exact ih _

theorem scanLast_some_acc (mc : Int) (p : String) (l : List ModelItem)
    (m : ModelItem) (h : ∀ it ∈ l, matchesPart mc p it = false) :
    scanLast mc p l (some m) = some m :=
  scanLast_all_false mc p l (some m) h

theorem goNamedPath_resolves (mc : Int) (items level : List ModelItem)
    (parts : List String) (m : ModelItem)
    (h : PathResolves mc items parts level m) :
    ∃ r, goNamedPath mc parts items = some r ∧
      List.Sorted byColumn r ∧
      r.Perm (level.filter (fun it => decide (it.row = m.row))) := by
  induction h with
  | last lvl p m' hfind =>
    refine ⟨rowOf lvl m', by simp [goNamedPath, hfind], ?_, ?_⟩
    · exact List.sorted_insertionSort byColumn _
    · exact List.perm_insertionSort byColumn _
  | descend lvl p q rest m' fl fm hscan _ ih =>
    simpa [goNamedPath, hscan] using ih

theorem goNamedPath_fails (mc : Int) (items : List ModelItem)
    (parts : List String) (h : PathFails mc items parts) :
    goNamedPath mc parts items = none := by
  induction h with
  | here lvl p rest hall =>
    cases rest with
    | nil =>
      have hf : lvl.find? (matchesPart mc p) = none :=
        List.find?_eq_none.mpr (fun x hx => by simp [hall x hx])
      simp [goNamedPath, hf]
    | cons q rest' =>
      have hs : scanLast mc p lvl none = none := scanLast_all_false mc p lvl none hall
      simp [goNamedPath, hs]
  | later lvl p q rest m' hscan _ ih =>
    simpa [goNamedPath, hscan] using ih

/-- C2: the full postcondition of `row_by_named_path`.  For every collection
and non-empty segment list: if the segments resolve level by level
(`PathResolves`), the call returns exactly the items of the final matched
level sharing the matched item's row index, sorted ascending by column
(a sorted permutation of the row filter); if some reached level has no item
matching the current segment (`PathFails`), the call returns `None` — no
partial result and no backtracking. -/
theorem c2_row_by_named_path_postcondition (mc : Int) (self : ModelItems)
    (parts : List String) (_hne : parts ≠ []) :
    (∀ (level : List ModelItem) (m : ModelItem),
        PathResolves mc self.items parts level m →
        ∃ r, self.row_by_named_path parts mc = some r ∧
          List.Sorted byColumn r ∧
          r.Perm (level.filter (fun it => decide (it.row = m.row)))) ∧
    (PathFails mc self.items parts → self.row_by_named_path parts mc = none) := by
  clear _hne
  exact ⟨fun level m h => goNamedPath_resolves mc self.items level parts m h,
    fun h => goNamedPath_fails mc self.items parts h⟩

/-- C2 witness: the spec's scenario — level-1 item
`{value A, column 0, row 0}` with children `{value B, column 0, row 0}` and
`{value X, column 1, row 0}`; the path `["A", "B"]` resolves and returns
the sorted row `[B, X]`. -/
theorem c2_row_by_named_path_postcondition_witness :
    ∃ r, ModelItems.row_by_named_path
        ⟨[ModelItem.mk 0 0 "A" [ModelItem.mk 0 0 "B" [], ModelItem.mk 0 1 "X" []]]⟩
        ["A", "B"] 0 = some r ∧
      List.Sorted byColumn r ∧
      r.Perm ((List.filter (fun it => decide (it.row = (0 : Int)))
        [ModelItem.mk 0 0 "B" [], ModelItem.mk 0 1 "X" []])) :=
  (c2_row_by_named_path_postcondition 0
      ⟨[ModelItem.mk 0 0 "A" [ModelItem.mk 0 0 "B" [], ModelItem.mk 0 1 "X" []]]⟩
      ["A", "B"] (by simp)).1
    [ModelItem.mk 0 0 "B" [], ModelItem.mk 0 1 "X" []]
    (ModelItem.mk 0 0 "B" [])
    (PathResolves.descend _ _ _ _ _ _ _ rfl
      (PathResolves.last _ _ _ rfl))

/-- C5 (counterexample): with two siblings both matching `(0, "A")` — the
first with child `B1`, the second with child `B2` — the code descends into
the *last* matching sibling: `["A", "B1"]` is not found while `["A", "B2"]`
resolves, the opposite of the claim's first-match descent. -/
theorem c5_first_match_every_level_cex :
    claimedFirstMatchPath 0 ["A", "B1"]
        [ModelItem.mk 0 0 "A" [ModelItem.mk 0 0 "B1" []],
         ModelItem.mk 1 0 "A" [ModelItem.mk 0 0 "B2" []]] =
      some [ModelItem.mk 0 0 "B1" []] ∧
    ModelItems.row_by_named_path
        ⟨[ModelItem.mk 0 0 "A" [ModelItem.mk 0 0 "B1" []],
          ModelItem.mk 1 0 "A" [ModelItem.mk 0 0 "B2" []]]⟩
        ["A", "B1"] 0 = none ∧
    ModelItems.row_by_named_path
        ⟨[ModelItem.mk 0 0 "A" [ModelItem.mk 0 0 "B1" []],
          ModelItem.mk 1 0 "A" [ModelItem.mk 0 0 "B2" []]]⟩
        ["A", "B2"] 0 = some [ModelItem.mk 0 0 "B2" []] := by
  refine ⟨by decide, by decide, by decide⟩

/-- C5 (amended): the tie-break depends on the segment position.  At the
*final* segment the first matching sibling in iteration order wins (the row
is built from its row index); at an *intermediate* segment the scan does not
break, so the *last* matching sibling in iteration order wins and its
children become the next level. -/
theorem c5_tie_break_first_final_last_intermediate (mc : Int) (p : String)
    (l1 l2 : List ModelItem) (m : ModelItem)
    (hm : matchesPart mc p m = true) :
    ((∀ x ∈ l1, matchesPart mc p x = false) →
      goNamedPath mc [p] (l1 ++ m :: l2) = some (rowOf (l1 ++ m :: l2) m)) ∧
    ((∀ x ∈ l2, matchesPart mc p x = false) → ∀ (q : String) (rest : List String),
      goNamedPath mc (p :: q :: rest) (l1 ++ m :: l2) =
        goNamedPath mc (q :: rest) m.items) := by
  constructor
  · intro h1
    have hf : (l1 ++ m :: l2).find? (matchesPart mc p) = some m := by
      induction l1 with
      | nil => simp [List.find?, hm]
      | cons x xs ih =>
        have hx : matchesPart mc p x = false := h1 x (List.mem_cons_self x xs)
        simpa [List.find?, hx] using ih (fun y hy => h1 y (List.mem_cons_of_mem x hy))
    simp [goNamedPath, hf]
  · intro h2 q rest
    have hs : scanLast mc p (l1 ++ m :: l2) none = some m := by
      rw [scanLast_append]
      show scanLast mc p (m :: l2) _ = some m
      simp only [scanLast, hm, if_true]
      exact scanLast_some_acc mc p l2 m h2
    simp [goNamedPath, hs]

/-- C5 witness: on the duplicate-`A` level, the final-segment rule returns
the first `B2` row inside the last `A`'s children, and the
intermediate-segment rule descends into the last matching `A`. -/
theorem c5_tie_break_first_final_last_intermediate_witness :
    (goNamedPath 0 ["A"]
        ([] ++ ModelItem.mk 0 0 "A" [ModelItem.mk 0 0 "B1" []] ::
          [ModelItem.mk 1 0 "A" [ModelItem.mk 0 0 "B2" []]]) =
      some (rowOf ([] ++ ModelItem.mk 0 0 "A" [ModelItem.mk 0 0 "B1" []] ::
          [ModelItem.mk 1 0 "A" [ModelItem.mk 0 0 "B2" []]])
        (ModelItem.mk 0 0 "A" [ModelItem.mk 0 0 "B1" []]))) ∧
    (goNamedPath 0 ["A", "B2"]
        ([ModelItem.mk 0 0 "A" [ModelItem.mk 0 0 "B1" []]] ++
          ModelItem.mk 1 0 "A" [ModelItem.mk 0 0 "B2" []] :: []) =
      goNamedPath 0 ["B2"] (ModelItem.mk 1 0 "A" [ModelItem.mk 0 0 "B2" []]).items) :=
  ⟨(c5_tie_break_first_final_last_intermediate 0 "A" []
      [ModelItem.mk 1 0 "A" [ModelItem.mk 0 0 "B2" []]]
      (ModelItem.mk 0 0 "A" [ModelItem.mk 0 0 "B1" []]) (by decide)).1
      (by intro x hx; cases hx),
   (c5_tie_break_first_final_last_intermediate 0 "A"
      [ModelItem.mk 0 0 "A" [ModelItem.mk 0 0 "B1" []]] []
      (ModelItem.mk 1 0 "A" [ModelItem.mk 0 0 "B2" []]) (by decide)).2
      (by intro x hx; cases hx) "B2" []⟩

/-- C1 (counterexample): the claim's rule — dispatch to the first chain name
whose registered constructor differs from the requested one — disagrees with
`WidgetMetaClass.__call__` when an earlier chain entry is registered to the
requested variant itself.  Requesting `TableView` on the chain
`["QTableView", "QAbstractItemView", "QWidget"]` constructs `TableView`
(the walk breaks at `QTableView`), not the `AbstractItemView` that the
claim's first-differing-hit rule selects. -/
theorem c1_first_differing_hit_cex :
    claimedDispatchTarget cppClasses "TableView"
        ["QTableView", "QAbstractItemView", "QWidget"] = some "AbstractItemView" ∧
    WidgetMetaClass.call cppClasses 2 "TableView"
        ["QTableView", "QAbstractItemView", "QWidget"] = some "TableView" ∧
    "AbstractItemView" ≠ "TableView" :=
  ⟨rfl, rfl, by decide⟩

/-- C1 (amended): dynamic dispatch is decided by the *first* chain name found
in the registry, regardless of whether its registered constructor differs
from the requested one: resolution constructs that registered variant (which
is the requested variant itself when they coincide), and constructs the
requested variant when no chain entry is registered.  Any fuel ≥ 2 suffices,
so the Python mutual recursion terminates.  In particular, resolving the
chain `["QTableView", "QAbstractItemView", "QWidget"]` through a generic
requested variant returns a `TableView` instance (most-derived wins). -/
theorem c1_dispatch_first_registered_wins :
    (∀ (reg : Registry) (cls : String) (classes : List String) (fuel : Nat),
        WidgetMetaClass.call reg (fuel + 2) cls classes =
          some ((firstRegistered reg classes).getD cls)) ∧
    WidgetMetaClass.call cppClasses 2 "Widget"
        ["QTableView", "QAbstractItemView", "QWidget"] = some "TableView" :=
  ⟨fun reg cls classes fuel => WidgetMetaClass.call_fuel reg cls classes fuel, rfl⟩

/-- C4: when the first registry hit of the class chain is the requested
variant constructor itself, `WidgetMetaClass.__call__` stops walking and
constructs the requested variant directly — a single non-recursive step
(any fuel ≥ 1 suffices), returning an instance of the requested variant. -/
theorem c4_self_identity_terminates (reg : Registry) (cls : String)
    (classes : List String) (h : firstRegistered reg classes = some cls)
    (fuel : Nat) :
    WidgetMetaClass.call reg (fuel + 1) cls classes = some cls := by
  simp [WidgetMetaClass.call, h]

/-- C4 witness: requesting `TableView` on a chain whose first registry hit is
`QTableView → TableView` resolves to `TableView` with fuel 1. -/
theorem c4_self_identity_terminates_witness :
    firstRegistered cppClasses ["QTableView", "QAbstractItemView", "QWidget"] =
      some "TableView" ∧
    WidgetMetaClass.call cppClasses 1 "TableView"
      ["QTableView", "QAbstractItemView", "QWidget"] = some "TableView" :=
  ⟨rfl, c4_self_identity_terminates cppClasses "TableView"
    ["QTableView", "QAbstractItemView", "QWidget"] rfl 0⟩

/-- C6: the three access styles of the property proxy are equivalent and
uncached.  Item-style and attribute-style reads both return exactly the
lookup of the name in a fresh bulk read; the bulk read issues exactly one
`object_properties` query per call and returns the server's *current*
mapping (the embedding takes the live mapping as input, so nothing is
cached by construction); item-style and attribute-style writes both perform
exactly the single-entry `set_properties` command of `set_property`. -/
theorem c6_property_proxy_equivalent_uncached :
    ∀ (oid : Int) (server : List (String × Json)) (name : String) (v : Json),
      Properties.getItem oid server name =
        (lookupField server name, [object_properties_cmd oid]) ∧
      Properties.getAttr oid server name = Properties.getItem oid server name ∧
      Properties.call oid server = (server, [object_properties_cmd oid]) ∧
      Properties.setItem oid name v = Object.set_property oid name v ∧
      Properties.setAttr oid name v = Object.set_property oid name v ∧
      Object.set_property oid name v =
        [⟨"object_set_properties", oid, [("properties", Json.obj [(name, v)])]⟩] :=
  fun _ _ _ _ => ⟨rfl, rfl, rfl, rfl, rfl, rfl⟩

/-- C7 (counterexample): with the default positive `wait_for_enabled`,
`Widget.click` sends an `object_properties` poll on the channel *before*
validating the button, so the `ValueError` for the invalid button `"foo"`
is not raised before any remote call, contrary to the claim. -/
theorem c7_invalid_button_cex :
    (Widget.click (fun _ => enabledVisible) 1 true 0 "foo").2 =
      some "Invalid mouse button: foo" ∧
    (Widget.click (fun _ => enabledVisible) 1 true 0 "foo").1 =
      [object_properties_cmd 1] ∧
    (Widget.click (fun _ => enabledVisible) 1 true 0 "foo").1 ≠ [] := by
  refine ⟨by decide, by decide, by decide⟩

/-- C7 (amended): an invalid mouse button raises
`ValueError('Invalid mouse button: <btn>')` — identifying the offending
string, though not enumerating the legal set — and no click command is
sent.  `GItem.click` issues no remote call at all before the error;
`Widget.click` issues only the pre-wait property polls (none when
`wait_for_enabled` is not positive), never `widget_click`. -/
theorem c7_invalid_button_error (btn : String)
    (h : btn ≠ "left" ∧ btn ≠ "right" ∧ btn ≠ "middle") :
    ∀ (snaps : Nat → List (String × Json)) (oid viewid gid : Int)
      (wfe : Bool) (extra : Nat),
      GItem.click viewid gid btn = ([], some ("Invalid mouse button: " ++ btn)) ∧
      (Widget.click snaps oid wfe extra btn).2 =
        some ("Invalid mouse button: " ++ btn) ∧
      (∀ c ∈ (Widget.click snaps oid wfe extra btn).1,
        c.action = "object_properties") ∧
      (∃ u v : String, "Invalid mouse button: " ++ btn = u ++ btn ++ v) := by
  obtain ⟨h1, h2, h3⟩ := h
  intro snaps oid viewid gid wfe extra
  refine ⟨?_, ?_, ?_, ⟨"Invalid mouse button: ", "", by simp⟩⟩
  · simp [GItem.click, h1, h2, h3]
  · simp [Widget.click, h1, h2, h3]
  · intro c hc
    by_cases hw : wfe
    · simp [Widget.click, h1, h2, h3, hw] at hc
      rw [hc.2]
      rfl
    · simp [Widget.click, h1, h2, h3, hw] at hc

/-- C7 witness: the invalid button `"foo"` produces the error on both
click-style operations, with no remote call at all for `GItem.click`. -/
theorem c7_invalid_button_error_witness :
    GItem.click 0 0 "foo" = ([], some "Invalid mouse button: foo") ∧
    (Widget.click (fun _ => []) 0 false 0 "foo").2 =
      some "Invalid mouse button: foo" :=
  ⟨(c7_invalid_button_error "foo" ⟨by decide, by decide, by decide⟩
      (fun _ => []) 0 0 0 false 0).1,
   ((c7_invalid_button_error "foo" ⟨by decide, by decide, by decide⟩
      (fun _ => []) 0 0 0 false 0).2).1⟩

/-- C8 (counterexample): a model item whose value matches in the model
column but whose row index is `-1` defeats the claim — the code's
`assert index > -1` fires even though the text *is* among the model values,
so the call raises the not-found assertion and writes no `currentIndex`. -/
theorem c8_set_current_text_cex :
    matchesPart 0 "Blue" (ModelItem.mk (-1) 0 "Blue" []) = true ∧
    (ComboBox.set_current_text "cb" 0 7 [ModelItem.mk (-1) 0 "Blue" []] "Blue").2 =
      some "The text `Blue` is not in the combobox `cb`" ∧
    (∀ c ∈ (ComboBox.set_current_text "cb" 0 7
        [ModelItem.mk (-1) 0 "Blue" []] "Blue").1,
      c.action ≠ "object_set_properties") := by
  refine ⟨by decide, ?_, ?_⟩
  · simp [ComboBox.set_current_text, iterItems, matchesPart, List.find?,
      ModelItem.row, ModelItem.column, ModelItem.value]
  · intro c hc
    simp [ComboBox.set_current_text, iterItems, matchesPart, List.find?,
      ModelItem.row, ModelItem.column, ModelItem.value] at hc
    rcases hc with h | h | h <;> simp [h, object_properties_cmd]

/-- C8 (amended): when the first item (in iteration order) of the model
whose column is `modelColumn` and whose value equals `text` has a row index
above `-1`, `set_current_text` writes `currentIndex` to that row; when no
item matches, the call raises the not-found assertion — whose message
contains the attempted text and the widget path — and issues no
`currentIndex` write. -/
theorem c8_set_current_text_found_or_not (path : String) (col oid : Int)
    (items : List ModelItem) (text : String) :
    (∀ it : ModelItem, (iterItems items).find? (matchesPart col text) = some it →
      -1 < it.row →
      ComboBox.set_current_text path col oid items text =
        ([object_properties_cmd oid, ⟨"model", oid, []⟩, ⟨"model_items", oid, []⟩] ++
          Object.set_property oid "currentIndex" (Json.int it.row), none)) ∧
    ((∀ it ∈ iterItems items, matchesPart col text it = false) →
      ComboBox.set_current_text path col oid items text =
        ([object_properties_cmd oid, ⟨"model", oid, []⟩, ⟨"model_items", oid, []⟩],
         some ("The text `" ++ text ++ "` is not in the combobox `" ++ path ++ "`")) ∧
      (∃ u v : String,
        "The text `" ++ text ++ "` is not in the combobox `" ++ path ++ "`" =
          u ++ text ++ v) ∧
      (∃ u v : String,
        "The text `" ++ text ++ "` is not in the combobox `" ++ path ++ "`" =
          u ++ path ++ v)) := by
  constructor
  · intro it hf hrow
    simp [ComboBox.set_current_text, hf, hrow]
  · intro hall
    have hf : (iterItems items).find? (matchesPart col text) = none :=
      List.find?_eq_none.mpr (fun x hx => by simp [hall x hx])
    refine ⟨by simp [ComboBox.set_current_text, hf], ?_, ?_⟩
    · exact ⟨"The text `", "` is not in the combobox `" ++ path ++ "`",
        by simp [String.append_assoc]⟩
    · exact ⟨"The text `" ++ text ++ "` is not in the combobox `", "`",
        by simp [String.append_assoc]⟩

/-- C8 witness: the spec's combobox scenario — items
`{column 0, row 0, value Red}` and `{column 0, row 1, value Blue}`; setting
`"Blue"` writes `currentIndex = 1`, and setting `"Green"` raises the
not-found assertion naming the text and the widget path. -/
theorem c8_set_current_text_found_or_not_witness :
    ComboBox.set_current_text "cb" 0 3
        [ModelItem.mk 0 0 "Red" [], ModelItem.mk 1 0 "Blue" []] "Blue" =
      ([object_properties_cmd 3, ⟨"model", 3, []⟩, ⟨"model_items", 3, []⟩] ++
        Object.set_property 3 "currentIndex" (Json.int 1), none) ∧
    ComboBox.set_current_text "cb" 0 3
        [ModelItem.mk 0 0 "Red" [], ModelItem.mk 1 0 "Blue" []] "Green" =
      ([object_properties_cmd 3, ⟨"model", 3, []⟩, ⟨"model_items", 3, []⟩],
       some ("The text `" ++ "Green" ++ "` is not in the combobox `" ++ "cb" ++ "`")) :=
  ⟨(c8_set_current_text_found_or_not "cb" 0 3
      [ModelItem.mk 0 0 "Red" [], ModelItem.mk 1 0 "Blue" []] "Blue").1
      (ModelItem.mk 1 0 "Blue" [])
      (by simp [iterItems, matchesPart, ModelItem.column, ModelItem.value, List.find?])
      (by decide),
   ((c8_set_current_text_found_or_not "cb" 0 3
      [ModelItem.mk 0 0 "Red" [], ModelItem.mk 1 0 "Blue" []] "Green").2
      (by
        intro it hit
        simp [iterItems] at hit
        rcases hit with h | h <;> simp [h, matchesPart, ModelItem.value])).1⟩

/-- C9 (counterexample): a top-level tree descriptor lacking the reserved
`items` field does *not* construct an empty collection —
`TreeItems.__init__` reads `data['items']` unconditionally, so construction
raises `KeyError` (embedded as `none`) instead of succeeding. -/
theorem c9_missing_items_collection_cex :
    ¬ ∃ c : TItems, TreeItems.init (Json.obj []) = some c := by
  rintro ⟨c, hc⟩
  simp [TreeItems.init, lookupField] at hc

theorem buildChildren_of_no_items (fields : List (String × Json))
    (h : lookupField fields "items" = none) :
    TreeItem.buildChildren fields = some [] := by
  induction fields with
  | nil => rfl
  | cons kv rest ih =>
    obtain ⟨k, v⟩ := kv
    by_cases hk : k = "items"
    · simp [lookupField, hk] at h
    · have h' : lookupField rest "items" = none := by
        simpa [lookupField, hk] using h
      cases v <;> simp [TreeItem.buildChildren, hk, ih h']

/-- C9 (amended): a *node* descriptor lacking the `items` field constructs
successfully with an empty child list (and all its fields retained), but a
*top-level collection* descriptor lacking the field fails to construct —
`data['items']` raises `KeyError` — rather than producing an empty list. -/
theorem c9_missing_items_node_empty_collection_raises
    (fields : List (String × Json)) (h : lookupField fields "items" = none) :
    TreeItem.init (Json.obj fields) = some (TItem.mk fields []) ∧
    TreeItems.init (Json.obj fields) = none := by
  constructor
  · simp [TreeItem.init, buildChildren_of_no_items fields h]
  · simp [TreeItems.init, h]

/-- C9 witness: a descriptor with only a `value` field builds a node with no
children, while the collection constructor fails on the same data. -/
theorem c9_missing_items_node_empty_collection_raises_witness :
    TreeItem.init (Json.obj [("value", Json.str "A")]) =
      some (TItem.mk [("value", Json.str "A")] []) ∧
    TreeItems.init (Json.obj [("value", Json.str "A")]) = none :=
  c9_missing_items_node_empty_collection_raises [("value", Json.str "A")] (by decide)

/-- C10: in `wait_for_properties`, an expected value of `None` matches an
absent key: the check compares `properties.get(k)` — the lookup with `None`
default — against the expected value, so an expected entry `(k, None)` is
satisfied by any snapshot not containing `k`, and
`wait_for_properties({k: None})` returns `True` on the first poll even when
the key never exists on the remote object. -/
theorem c10_wait_for_properties_none_matches_absent :
    (∀ (properties rest : List (String × Json)) (k : String),
      lookupField properties k = none →
      check_props properties ((k, Json.null) :: rest) = check_props properties rest) ∧
    (∀ (snaps : Nat → List (String × Json)) (k : String) (extra : Nat),
      lookupField (snaps 0) k = none →
      Object.wait_for_properties snaps [(k, Json.null)] extra = true) := by
  constructor
  · intro properties rest k h
    simp [check_props, h]
  · intro snaps k extra h
    have hp : check_props (snaps 0) [(k, Json.null)] = true := by
      simp [check_props, h]
    cases extra with
    | zero => simpa [Object.wait_for_properties, wait_for] using hp
    | succ n => simp [Object.wait_for_properties, wait_for, hp]

/-- C10 witness: waiting for `{enabled: None}` on an object that never has
an `enabled` property succeeds immediately, with zero extra polls allowed. -/
theorem c10_wait_for_properties_none_matches_absent_witness :
    check_props [] [("enabled", Json.null)] = check_props [] [] ∧
    Object.wait_for_properties (fun _ => []) [("enabled", Json.null)] 0 = true :=
  ⟨(c10_wait_for_properties_none_matches_absent).1 [] [] "enabled" rfl,
   (c10_wait_for_properties_none_matches_absent).2 (fun _ => []) "enabled" 0 rfl⟩

end Funq
